import Mathlib

/-!
Shallow embedding of the CRM's communications engine
(`communications/models.py`, `communications/services.py`,
`communications/views.py`) and proofs about its behaviour.

Conventions of the embedding:
* Django model rows become Lean structures; the database becomes explicit
  lists of rows threaded through the operations.
* Timestamps (`timezone.now()`) become a `Nat` parameter `now`.
* Status enums are the source's string literals.
* The SMTP transport is a parameter `res : Nat -> SendResult` giving, per
  email id, the outcome of the delivery attempt (success, a falsy return
  from `msg.send`, or a raised exception with its message).
-/

namespace CRM

/-! ### Template rendering

`EmailTemplate.get_rendered_content` delegates to `django.template.Template`.
Django's engine substitutes `\x7b\x7b var \x7d\x7d` tokens with the context value; a
variable missing from the context renders as `TEMPLATE_STRING_IF_INVALID`,
which this project leaves at Django's default, the empty string.  We embed
that substitution directly: scan for a `\x7b\x7b` opener, take everything up to the
first `\x7d\x7d` as the variable expression, trim surrounding whitespace, and look
it up in the context. -/

/-- A template context: the (name, value) pairs built by
`EmailTemplateService.render_template`. -/
abbrev Ctx := List (String × String)

/-- Context lookup, first binding wins. -/
def ctxLookup (ctx : Ctx) (name : String) : Option String :=
  (ctx.find? (fun p => p.1 == name)).map (·.2)

/-- Value substituted for a variable token: the context value, or Django's
default `string_if_invalid` (the empty string) when the name is unknown. -/
def resolveVar (ctx : Ctx) (name : String) : String :=
  match ctxLookup ctx name with
  | some v => v
  | none => ""

/-- Whitespace test used by `str.strip()` / token trimming. -/
def isSpaceChar (c : Char) : Bool :=
  c == ' ' || c == '\t' || c == '\n' || c == '\r'

/-- Python `str.strip()` on a character list. -/
def trimChars (cs : List Char) : List Char :=
  ((cs.dropWhile isSpaceChar).reverse.dropWhile isSpaceChar).reverse

/-- Scan for the closing `\x7d\x7d` of a variable token: returns the characters
before it and the characters after it (Django's lexer regex is non-greedy,
so the first `\x7d\x7d` closes the token). -/
def findClose : List Char → Option (List Char × List Char)
  | [] => none
  | c :: rest =>
    if c = '}' ∧ rest.head? = some '}' then some ([], rest.tail)
    else (findClose rest).map (fun p => (c :: p.1, p.2))

/-- One pass of Django variable substitution over a character list.  `fuel`
is an upper bound on the number of characters still to be consumed; every
step consumes at least one character, so `fuel = cs.length` is always
enough (see `renderAux_fuel_irrelevant`). -/
def renderAux (ctx : Ctx) : Nat → List Char → List Char
  | 0, cs => cs
  | _ + 1, [] => []
  | fuel + 1, c :: rest =>
    if c = '{' then
      match rest with
      | c2 :: rest2 =>
        if c2 = '{' then
          match findClose rest2 with
          | some (nm, rest3) =>
            (resolveVar ctx (String.mk (trimChars nm))).data ++ renderAux ctx fuel rest3
          | none => c :: renderAux ctx fuel rest
        else c :: renderAux ctx fuel rest
      | [] => [c]
    else c :: renderAux ctx fuel rest

/-- Django template rendering of a single string against a context. -/
def renderString (ctx : Ctx) (s : String) : String :=
  String.mk (renderAux ctx s.data.length s.data)

/-- `django.utils.html.strip_tags`: drop everything between `<` and `>`. -/
def stripTagsAux : Bool → List Char → List Char
  | _, [] => []
  | true, c :: rest => if c = '>' then stripTagsAux false rest else stripTagsAux true rest
  | false, c :: rest => if c = '<' then stripTagsAux true rest else c :: stripTagsAux false rest

/-- HTML tag removal used to derive a text body from the rendered HTML. -/
def stripTags (s : String) : String :=
  String.mk (stripTagsAux false s.data)

/-! ### Data model -/

/-- `leads.models.Lead` (the fields the communications engine reads). -/
structure Lead where
  id : Nat
  firstName : String
  lastName : Option String
  email : Option String
  phone : Option String
  company : Option String
  status : String
  priority : String
  sourceId : Option Nat
deriving DecidableEq

/-- `Lead.get_full_name`. -/
def Lead.getFullName (l : Lead) : String :=
  String.mk (trimChars (l.firstName ++ " " ++ (l.lastName.getD "")).data)

/-- The sending user (Django auth user fields read by the engine). -/
structure UserM where
  id : Nat
  firstName : String
  lastName : String
  email : String
deriving DecidableEq

/-- Django `User.get_full_name`. -/
def UserM.getFullName (u : UserM) : String :=
  String.mk (trimChars (u.firstName ++ " " ++ u.lastName).data)

/-- `communications.models.EmailTemplate` (content fields). -/
structure EmailTemplate where
  id : Nat
  subject : String
  bodyHtml : String
  bodyText : String
deriving DecidableEq

/-- Result of `EmailTemplate.get_rendered_content`. -/
structure RenderedContent where
  subject : String
  htmlBody : String
  textBody : String
deriving DecidableEq

/-- `EmailTemplate.get_rendered_content`: render subject and HTML body; the
text body is rendered when present, else derived by stripping tags from the
rendered HTML. -/
def getRenderedContent (t : EmailTemplate) (ctx : Ctx) : RenderedContent :=
  let renderedSubject := renderString ctx t.subject
  let renderedHtml := renderString ctx t.bodyHtml
  let renderedText :=
    if t.bodyText ≠ "" then renderString ctx t.bodyText
    else stripTags renderedHtml
  { subject := renderedSubject, htmlBody := renderedHtml, textBody := renderedText }

/-- The context built by `EmailTemplateService.render_template`.
`currentDate`/`currentTime` stand for the formatted `timezone.now()`. -/
def buildContext (lead : Lead) (user : UserM) (currentDate currentTime : String) : Ctx :=
  [("lead_name", lead.getFullName),
   ("first_name", lead.firstName),
   ("last_name", lead.lastName.getD ""),
   ("company", lead.company.getD ""),
   ("email", lead.email.getD ""),
   ("phone", lead.phone.getD ""),
   ("user_name", user.getFullName),
   ("user_email", user.email),
   ("current_date", currentDate),
   ("current_time", currentTime)]

/-- `EmailTemplateService.render_template`. -/
def renderTemplate (t : EmailTemplate) (lead : Lead) (user : UserM)
    (currentDate currentTime : String) : RenderedContent :=
  getRenderedContent t (buildContext lead user currentDate currentTime)

/-- `communications.models.EmailConfiguration` (the fields the engine
reads; SMTP transport settings are abstracted into `SendResult`). -/
structure EmailConfig where
  id : Nat
  userId : Nat
  name : String
  fromEmail : String
  fromName : String
  replyTo : String
  isActive : Bool
  isDefault : Bool
deriving DecidableEq

/-- The `update(is_default=False)` query in `EmailConfiguration.save`:
clear `is_default` on every stored row of the same user that has it set
(this includes the stored copy of the row being saved, if any). -/
def clearOtherDefaults (configs : List EmailConfig) (uid : Nat) : List EmailConfig :=
  configs.map (fun x => if x.userId = uid ∧ x.isDefault then { x with isDefault := false } else x)

/-- `super().save()`: write the in-memory row back, replacing the stored
row with the same primary key or inserting a fresh one. -/
def upsertConfig (configs : List EmailConfig) (c : EmailConfig) : List EmailConfig :=
  if configs.any (fun x => x.id == c.id) then
    configs.map (fun x => if x.id = c.id then c else x)
  else configs ++ [c]

/-- `EmailConfiguration.save`: when the row being saved has
`is_default=True`, first clear the flag on the user's other rows, then
write the row. -/
def EmailConfig.save (configs : List EmailConfig) (c : EmailConfig) : List EmailConfig :=
  let cleared := if c.isDefault then clearOtherDefaults configs c.userId else configs
  upsertConfig cleared c

/-- Number of stored `is_default=True` rows belonging to `uid`. -/
def defaultCount (configs : List EmailConfig) (uid : Nat) : Nat :=
  configs.countP (fun x => x.userId == uid && x.isDefault)

/-- `communications.models.EmailCampaign`. -/
structure Campaign where
  id : Nat
  userId : Nat
  status : String
  targetAllLeads : Bool
  targetStatuses : List String
  targetPriorities : List String
  targetSources : List Nat
  specificLeads : List Nat
  batchSize : Nat
  totalRecipients : Nat
  emailsSent : Nat
  emailsFailed : Nat
  completedAt : Option Nat
deriving DecidableEq

/-- A lead passes the final `filter(email__isnull=False).exclude(email='')`
of `EmailCampaign.get_target_leads`. -/
def emailPresent (l : Lead) : Bool :=
  l.email != none && l.email != some ""

/-- Row de-duplication (`.distinct()` / `union`): keep the first row seen
for each primary key.  In the database two rows of one table never share a
primary key, so this mirrors SQL `DISTINCT` over the accumulated rows. -/
def dedupByIdAux (seen : List Nat) : List Lead → List Lead
  | [] => []
  | l :: rest =>
    if seen.contains l.id then dedupByIdAux seen rest
    else l :: dedupByIdAux (l.id :: seen) rest

/-- De-duplicate a lead list by primary key. -/
def dedupById (ls : List Lead) : List Lead := dedupByIdAux [] ls

/-- `EmailCampaign.get_target_leads` over the lead table `leads`:
all leads when `target_all_leads`, else the union of the status,
priority, source and explicit-lead filters; finally drop leads with a
missing or empty email and de-duplicate. -/
def getTargetLeads (c : Campaign) (leads : List Lead) : List Lead :=
  let base :=
    if c.targetAllLeads then leads
    else
      (if !c.targetStatuses.isEmpty then
        leads.filter (fun l => c.targetStatuses.contains l.status) else [])
      ++ (if !c.targetPriorities.isEmpty then
        leads.filter (fun l => c.targetPriorities.contains l.priority) else [])
      ++ (if !c.targetSources.isEmpty then
        leads.filter (fun l =>
          match l.sourceId with
          | some s => c.targetSources.contains s
          | none => false) else [])
      ++ (if !c.specificLeads.isEmpty then
        leads.filter (fun l => c.specificLeads.contains l.id) else [])
  dedupById (base.filter emailPresent)

/-- `communications.models.Email` — one outbound message row. -/
structure EmailRow where
  id : Nat
  trackingId : Nat
  userId : Nat
  leadId : Nat
  campaignId : Option Nat
  templateId : Option Nat
  subject : String
  bodyHtml : String
  bodyText : String
  fromEmail : String
  fromName : String
  toEmail : String
  toName : String
  replyTo : String
  status : String
  sentAt : Option Nat
  openedAt : Option Nat
  clickedAt : Option Nat
  openCount : Nat
  clickCount : Nat
  errorMessage : String
  retryCount : Nat
  maxRetries : Nat
deriving DecidableEq

/-- Outcome of one SMTP delivery attempt, as `EmailService.send_email`
observes it: `msg.send` returned truthy, returned falsy, or raised an
exception carrying a message. -/
inductive SendResult
  | ok
  | sendReturnedFalse
  | exn (msg : String)
deriving DecidableEq

/-- What `EmailService.send_email` leaves behind: the updated row, the
`EmailTracking` events appended (as (email id, event type)), the
`LeadActivity` records appended (as (lead id, subject)), and the
(success, message) return value. -/
structure SendOutput where
  row : EmailRow
  tracking : List (Nat × String)
  activities : List (Nat × String)
  success : Bool
  message : String
deriving DecidableEq

/-- `EmailService.send_email` on one row.  On success: status `sent`,
`sent_at` stamped, a `sent` tracking event and a lead activity appended.
When `msg.send` returns falsy: status `failed`, a fixed error message,
`retry_count` untouched.  When an exception is raised: status `failed`,
the exception text stored, `retry_count` incremented.  (The transient
`status='sending'` save is overwritten on every path.) -/
def sendEmail (e : EmailRow) (r : SendResult) (now : Nat) : SendOutput :=
  match r with
  | .ok =>
    { row := { e with status := "sent", sentAt := some now },
      tracking := [(e.id, "sent")],
      activities := [(e.leadId, "Email sent: " ++ e.subject)],
      success := true,
      message := "Email sent successfully" }
  | .sendReturnedFalse =>
    { row := { e with status := "failed", errorMessage := "Failed to send email" },
      tracking := [], activities := [],
      success := false, message := "Failed to send email" }
  | .exn m =>
    { row := { e with status := "failed", errorMessage := m, retryCount := e.retryCount + 1 },
      tracking := [], activities := [],
      success := false, message := m }

/-- The mail-related tables threaded through the services. -/
structure MailDb where
  emails : List EmailRow
  tracking : List (Nat × String)
  activities : List (Nat × String)
deriving DecidableEq

/-- Replace the stored email row with primary key `id`. -/
def updateEmail (emails : List EmailRow) (id : Nat) (e : EmailRow) : List EmailRow :=
  emails.map (fun x => if x.id = id then e else x)

/-- The `for email in queued_emails` loop of
`EmailCampaignService.send_campaign_batch`: send each row of the batch,
persist its new state, and count successes and failures. -/
def sendBatchLoop (res : Nat → SendResult) (now : Nat) :
    List EmailRow → MailDb → Nat → Nat → MailDb × Nat × Nat
  | [], db, sent, failed => (db, sent, failed)
  | e :: rest, db, sent, failed =>
    let out := sendEmail e (res e.id) now
    let db' : MailDb :=
      { emails := updateEmail db.emails e.id out.row,
        tracking := db.tracking ++ out.tracking,
        activities := db.activities ++ out.activities }
    if out.success then sendBatchLoop res now rest db' (sent + 1) failed
    else sendBatchLoop res now rest db' sent (failed + 1)

/-- `EmailCampaignService.send_campaign_batch`.  `batchSize?` models the
optional `batch_size` argument; Python's `if not batch_size` falls back to
the campaign's own batch size for `None` and for `0`.  Selects up to that
many `queued` rows of the campaign; if there are none, the campaign is
complete (`status='sent'`, `completed_at` stamped); otherwise each selected
row is sent and the campaign counters are increased by the batch totals. -/
def sendCampaignBatch (c : Campaign) (db : MailDb) (batchSize? : Option Nat)
    (res : Nat → SendResult) (now : Nat) : Campaign × MailDb × Nat × Nat :=
  let batchSize :=
    match batchSize? with
    | none => c.batchSize
    | some n => if n = 0 then c.batchSize else n
  let queued :=
    (db.emails.filter (fun e => e.campaignId == some c.id && e.status == "queued")).take batchSize
  if queued.isEmpty then
    ({ c with status := "sent", completedAt := some now }, db, 0, 0)
  else
    let (db', sent, failed) := sendBatchLoop res now queued db 0 0
    ({ c with emailsSent := c.emailsSent + sent, emailsFailed := c.emailsFailed + failed },
     db', sent, failed)

/-- Iterate `send_campaign_batch` (the external scheduler's repeated
invocation), threading campaign and database. -/
def batchIter (res : Nat → SendResult) (now : Nat) :
    Nat → Campaign × MailDb → Campaign × MailDb
  | 0, p => p
  | n + 1, p =>
    let r := sendCampaignBatch p.1 p.2 none res now
    batchIter res now n (r.1, r.2.1)

/-- `Email.objects.filter(campaign=..., lead=...).exists()` — the
duplicate check of `EmailCampaignService.create_campaign_emails`. -/
def campaignEmailExists (emails : List EmailRow) (cid lid : Nat) : Bool :=
  emails.any (fun e => e.campaignId == some cid && e.leadId == lid)

/-- Number of stored Email rows for one (campaign, lead) pair. -/
def campaignPairCount (emails : List EmailRow) (cid lid : Nat) : Nat :=
  emails.countP (fun e => e.campaignId == some cid && e.leadId == lid)

/-- The queued row inserted for one campaign recipient: template rendered
against (lead, campaign.user), sender fields copied from the campaign's
email configuration.  `nid` models the auto-increment primary key, also
used as the tracking id. -/
def newCampaignEmail (c : Campaign) (tpl : EmailTemplate) (cfg : EmailConfig)
    (user : UserM) (currentDate currentTime : String) (l : Lead) (nid : Nat) : EmailRow :=
  let rc := renderTemplate tpl l user currentDate currentTime
  { id := nid, trackingId := nid, userId := c.userId, leadId := l.id,
    campaignId := some c.id, templateId := some tpl.id,
    subject := rc.subject, bodyHtml := rc.htmlBody, bodyText := rc.textBody,
    fromEmail := cfg.fromEmail, fromName := cfg.fromName,
    toEmail := l.email.getD "", toName := l.getFullName, replyTo := cfg.replyTo,
    status := "queued", sentAt := none, openedAt := none, clickedAt := none,
    openCount := 0, clickCount := 0, errorMessage := "", retryCount := 0, maxRetries := 3 }

/-- The `for lead in leads` loop of `create_campaign_emails`: skip leads
that already have an Email row for this campaign, insert a queued row for
the others. -/
def createEmailsLoop (c : Campaign) (tpl : EmailTemplate) (cfg : EmailConfig)
    (user : UserM) (currentDate currentTime : String) :
    List Lead → List EmailRow → Nat → Nat → List EmailRow × Nat × Nat
  | [], emails, nid, cnt => (emails, nid, cnt)
  | l :: rest, emails, nid, cnt =>
    if campaignEmailExists emails c.id l.id then
      createEmailsLoop c tpl cfg user currentDate currentTime rest emails nid cnt
    else
      createEmailsLoop c tpl cfg user currentDate currentTime rest
        (emails ++ [newCampaignEmail c tpl cfg user currentDate currentTime l nid])
        (nid + 1) (cnt + 1)

/-- Result of `create_campaign_emails`: updated campaign row, updated
email table, next free primary key, and the return value (rows created). -/
structure CreateResult where
  campaign : Campaign
  emails : List EmailRow
  nextId : Nat
  created : Nat
deriving DecidableEq

/-- `EmailCampaignService.create_campaign_emails`: materialize the
campaign's resolved targets into queued Email rows (one per (campaign,
lead) pair, skipping pairs that already have a row), then reset the
campaign's `emails_sent`/`emails_failed` counters to zero. -/
def createCampaignEmails (c : Campaign) (tpl : EmailTemplate) (cfg : EmailConfig)
    (user : UserM) (currentDate currentTime : String)
    (leads : List Lead) (emails : List EmailRow) (nextId : Nat) : CreateResult :=
  let targets := getTargetLeads c leads
  let r := createEmailsLoop c tpl cfg user currentDate currentTime targets emails nextId 0
  { campaign := { c with emailsSent := 0, emailsFailed := 0 },
    emails := r.1, nextId := r.2.1, created := r.2.2 }

/-! ### Sequence engine -/

/-- `communications.models.EmailSequenceStep`. -/
structure SeqStep where
  stepNumber : Nat
  template : EmailTemplate
  delayDays : Nat
  sendOnlyIfNotReplied : Bool
  sendOnlyIfStatus : List String
  isActive : Bool
deriving DecidableEq

/-- `communications.models.EmailSequenceEnrollment`. -/
structure Enrollment where
  sequenceId : Nat
  leadId : Nat
  enrolledAt : Nat
  currentStep : Nat
  isActive : Bool
  completedAt : Option Nat
  emailsSent : Nat
  lastEmailSent : Option Nat
  hasReplied : Bool
deriving DecidableEq

/-- `enrollment.sequence.steps.filter(step_number=current+1, is_active=True).first()`
(with `(sequence, step_number)` unique, at most one row matches). -/
def findNextStep (steps : List SeqStep) (currentStep : Nat) : Option SeqStep :=
  (steps.filter (fun s => s.stepNumber == currentStep + 1 && s.isActive)).head?

/-- The email-configuration lookup of `_schedule_next_step`: the owner's
default configuration, else the owner's first active one. -/
def lookupConfig (configs : List EmailConfig) (uid : Nat) : Option EmailConfig :=
  match (configs.filter (fun k => k.userId == uid && k.isDefault)).head? with
  | some k => some k
  | none => (configs.filter (fun k => k.userId == uid && k.isActive)).head?

/-- The queued row inserted for one sequence step (no campaign link;
sender fields from the resolved configuration). -/
def sequenceEmailRow (s : SeqStep) (lead : Lead) (user : UserM) (cfg : EmailConfig)
    (currentDate currentTime : String) (nid : Nat) : EmailRow :=
  let rc := renderTemplate s.template lead user currentDate currentTime
  { id := nid, trackingId := nid, userId := user.id, leadId := lead.id,
    campaignId := none, templateId := some s.template.id,
    subject := rc.subject, bodyHtml := rc.htmlBody, bodyText := rc.textBody,
    fromEmail := cfg.fromEmail, fromName := cfg.fromName,
    toEmail := lead.email.getD "", toName := lead.getFullName, replyTo := cfg.replyTo,
    status := "queued", sentAt := none, openedAt := none, clickedAt := none,
    openCount := 0, clickCount := 0, errorMessage := "", retryCount := 0, maxRetries := 3 }

/-- The state `_schedule_next_step` reads and writes: the enrollment
cursor, the mail tables, and the next free email primary key. -/
structure SeqState where
  enrollment : Enrollment
  db : MailDb
  nextId : Nat
deriving DecidableEq

/-- `EmailSequenceService._schedule_next_step`.  `fuel` bounds the skip
recursion; every recursive call moves `current_step` to the (strictly
larger) number of a step found in `steps`, so at most `steps.length`
recursive calls happen and the `fuel = 0` branch is unreachable from the
top-level entry point `scheduleNextStep`.

Step lookup absent: mark the enrollment completed.  Reply gate or status
gate failing: advance `current_step` past the step and recurse.  Otherwise
resolve a configuration (none: log and return unchanged), insert a queued
Email row for the step, advance the cursor, and send the row immediately
(the send's save updates the freshly inserted row). -/
def scheduleNextStepAux (steps : List SeqStep) (lead : Lead) (user : UserM)
    (configs : List EmailConfig) (currentDate currentTime : String)
    (res : Nat → SendResult) (now : Nat) : Nat → SeqState → SeqState
  | 0, st => st
  | fuel + 1, st =>
    match findNextStep steps st.enrollment.currentStep with
    | none =>
      { st with enrollment :=
        { st.enrollment with isActive := false, completedAt := some now } }
    | some s =>
      if s.sendOnlyIfNotReplied && st.enrollment.hasReplied then
        scheduleNextStepAux steps lead user configs currentDate currentTime res now fuel
          { st with enrollment := { st.enrollment with currentStep := s.stepNumber } }
      else if !s.sendOnlyIfStatus.isEmpty && !s.sendOnlyIfStatus.contains lead.status then
        scheduleNextStepAux steps lead user configs currentDate currentTime res now fuel
          { st with enrollment := { st.enrollment with currentStep := s.stepNumber } }
      else
        match lookupConfig configs user.id with
        | none => st
        | some cfg =>
          let row := sequenceEmailRow s lead user cfg currentDate currentTime st.nextId
          let out := sendEmail row (res row.id) now
          { enrollment :=
              { st.enrollment with
                currentStep := s.stepNumber,
                emailsSent := st.enrollment.emailsSent + 1,
                lastEmailSent := some now },
            db :=
              { emails := st.db.emails ++ [out.row],
                tracking := st.db.tracking ++ out.tracking,
                activities := st.db.activities ++ out.activities },
            nextId := st.nextId + 1 }

/-- `_schedule_next_step` with enough fuel for every skip chain. -/
def scheduleNextStep (steps : List SeqStep) (lead : Lead) (user : UserM)
    (configs : List EmailConfig) (currentDate currentTime : String)
    (res : Nat → SendResult) (now : Nat) (st : SeqState) : SeqState :=
  scheduleNextStepAux steps lead user configs currentDate currentTime res now
    (steps.length + 1) st

/-! ### Tracking callbacks -/

/-- `Email.mark_as_opened`: only a `sent` or `delivered` row moves to
`opened` (stamping `opened_at` and bumping `open_count`); any other status
leaves the row untouched. -/
def markAsOpened (e : EmailRow) (now : Nat) : EmailRow :=
  if e.status = "sent" ∨ e.status = "delivered" then
    { e with status := "opened", openedAt := some now, openCount := e.openCount + 1 }
  else e

/-- `Email.mark_as_clicked`: only a `sent`, `delivered` or `opened` row
moves to `clicked`; a click on a never-opened row also counts an open. -/
def markAsClicked (e : EmailRow) (now : Nat) : EmailRow :=
  if e.status = "sent" ∨ e.status = "delivered" ∨ e.status = "opened" then
    let e' := { e with
      status := "clicked", clickedAt := some now, clickCount := e.clickCount + 1 }
    if e.openedAt = none then
      { e' with openedAt := some now, openCount := e.openCount + 1 }
    else e'
  else e

/-- The `communications.views.email_tracking` endpoint: an unknown
tracking id is a silent no-op; a known one appends an `EmailTracking` row
and, for `opened`/`clicked` events, applies the matching status
transition. -/
def emailTracking (db : MailDb) (trackingId : Nat) (event : String) (now : Nat) : MailDb :=
  match db.emails.find? (fun e => e.trackingId == trackingId) with
  | none => db
  | some e =>
    let db' := { db with tracking := db.tracking ++ [(e.id, event)] }
    if event = "opened" then
      { db' with emails := updateEmail db'.emails e.id (markAsOpened e now) }
    else if event = "clicked" then
      { db' with emails := updateEmail db'.emails e.id (markAsClicked e now) }
    else db'

/-- Position of a status in the forward lifecycle
queued → sending → sent → delivered → opened → clicked → replied. -/
def statusRank : String → Nat
  | "queued" => 0
  | "sending" => 1
  | "sent" => 2
  | "delivered" => 3
  | "opened" => 4
  | "clicked" => 5
  | "replied" => 6
  | _ => 0

/-! ### Concrete sample rows, used to instantiate the theorems -/

/-- A lead with a blank company, as in the spec's rendering example. -/
def sampleLead : Lead :=
  { id := 1, firstName := "Ann", lastName := none, email := some "ann@example.com",
    phone := none, company := some "", status := "new", priority := "warm",
    sourceId := none }

/-- The sending user. -/
def sampleUser : UserM :=
  { id := 9, firstName := "Bob", lastName := "Lee", email := "bob@example.com" }

/-- A template whose subject uses a placeholder outside the allowed set. -/
def sampleTemplateUnknown : EmailTemplate :=
  { id := 2, subject := "Hi \x7b\x7bunknown\x7d\x7d", bodyHtml := "B", bodyText := "T" }

/-- The template used by the sample sequence step. -/
def sampleStepTemplate : EmailTemplate :=
  { id := 3, subject := "Step \x7b\x7bfirst_name\x7d\x7d", bodyHtml := "B", bodyText := "T" }

/-- A queued campaign email row with primary key `i`. -/
def sampleQueuedEmail (i : Nat) : EmailRow :=
  { id := i, trackingId := i, userId := 9, leadId := i,
    campaignId := some 4, templateId := some 2, subject := "s", bodyHtml := "h",
    bodyText := "t", fromEmail := "from@example.com", fromName := "F",
    toEmail := "to@example.com", toName := "T", replyTo := "",
    status := "queued", sentAt := none, openedAt := none, clickedAt := none,
    openCount := 0, clickCount := 0, errorMessage := "", retryCount := 0, maxRetries := 3 }

/-- The campaign of the spec's worked example: `batch_size=2`, already
`sending`, counters at zero. -/
def sampleCampaign : Campaign :=
  { id := 4, userId := 9, status := "sending", targetAllLeads := true,
    targetStatuses := [], targetPriorities := [], targetSources := [], specificLeads := [],
    batchSize := 2, totalRecipients := 5, emailsSent := 0, emailsFailed := 0,
    completedAt := none }

/-- Mail tables holding exactly the five queued rows of the example. -/
def sampleDb5 : MailDb :=
  { emails := [sampleQueuedEmail 1, sampleQueuedEmail 2, sampleQueuedEmail 3,
               sampleQueuedEmail 4, sampleQueuedEmail 5],
    tracking := [], activities := [] }

/-- A fresh active enrollment at step 0. -/
def sampleEnrollment : Enrollment :=
  { sequenceId := 1, leadId := 1, enrolledAt := 0, currentStep := 0,
    isActive := true, completedAt := none, emailsSent := 0, lastEmailSent := none,
    hasReplied := true }

/-- Sequence-engine state around `sampleEnrollment` with empty mail tables. -/
def sampleSeqState : SeqState :=
  { enrollment := sampleEnrollment,
    db := { emails := [], tracking := [], activities := [] }, nextId := 10 }

/-- The sample user's default email configuration. -/
def sampleConfig : EmailConfig :=
  { id := 3, userId := 9, name := "main", fromEmail := "from@example.com",
    fromName := "F", replyTo := "", isActive := true, isDefault := true }

/-- A second configuration of the same user, not yet default. -/
def sampleConfig2 : EmailConfig :=
  { id := 5, userId := 9, name := "alt", fromEmail := "alt@example.com",
    fromName := "A", replyTo := "", isActive := true, isDefault := false }

/-- The second configuration with its default flag turned on, about to be
saved. -/
def sampleConfig2Default : EmailConfig := { sampleConfig2 with isDefault := true }

/-- A step gated on `send_only_if_not_replied`. -/
def sampleStep : SeqStep :=
  { stepNumber := 1, template := sampleStepTemplate, delayDays := 0,
    sendOnlyIfNotReplied := true, sendOnlyIfStatus := [], isActive := true }

/-- An already-opened email row (open tracked once). -/
def sampleOpenedEmail : EmailRow :=
  { sampleQueuedEmail 1 with status := "opened", openedAt := some 4, openCount := 1 }

/-- A sent email row awaiting its first open. -/
def sampleSentEmail : EmailRow :=
  { sampleQueuedEmail 1 with status := "sent", sentAt := some 3 }

/-- The sample sequence state for a lead that has not replied. -/
def sampleSeqStateNotReplied : SeqState :=
  { sampleSeqState with enrollment := { sampleEnrollment with hasReplied := false } }

/-- A lead without an email address (excluded from campaign targeting). -/
def sampleLeadNoEmail : Lead :=
  { id := 2, firstName := "Cal", lastName := some "Ray", email := none,
    phone := none, company := none, status := "qualified", priority := "hot",
    sourceId := some 1 }

/-! ## Supporting lemmas: the renderer -/

theorem findClose_spec (nm rest : List Char) (h : ∀ c ∈ nm, c ≠ '}') :
    findClose (nm ++ '}' :: '}' :: rest) = some (nm, rest) := by
  induction nm with
  | nil => simp [findClose]
  | cons c nm ih =>
    have hc : c ≠ '}' := h c (List.mem_cons_self c nm)
    simp [findClose, hc, ih (fun d hd => h d (List.mem_cons_of_mem c hd))]

theorem findClose_length :
    ∀ (l v r : List Char), findClose l = some (v, r) → r.length ≤ l.length := by
  intro l
  induction l with
  | nil => simp [findClose]
  | cons c rest ih =>
    intro v r h
    by_cases hcond : c = '}' ∧ rest.head? = some '}'
    · simp only [findClose, if_pos hcond, Option.some.injEq, Prod.mk.injEq] at h
      have : r = rest.tail := h.2.symm
      subst this
      calc rest.tail.length ≤ rest.length := by
            cases rest <;> simp
        _ ≤ (c :: rest).length := by simp
    · simp only [findClose, if_neg hcond, Option.map_eq_some'] at h
      obtain ⟨⟨v', r'⟩, h1, h2⟩ := h
      have : r = r' := by
        have := h2
        simp only [Prod.mk.injEq] at this
        exact this.2.symm
      subst this
      calc r.length ≤ rest.length := ih v' r h1
        _ ≤ (c :: rest).length := by simp

theorem renderAux_plain (ctx : Ctx) (fuel : Nat) (c : Char) (cs : List Char)
    (hc : c ≠ '{') :
    renderAux ctx (fuel + 1) (c :: cs) = c :: renderAux ctx fuel cs := by
  simp [renderAux, hc]

theorem renderAux_var (ctx : Ctx) (fuel : Nat) (nm rest : List Char)
    (h : ∀ c ∈ nm, c ≠ '}') :
    renderAux ctx (fuel + 1) ('{' :: '{' :: (nm ++ '}' :: '}' :: rest)) =
      (resolveVar ctx (String.mk (trimChars nm))).data ++ renderAux ctx fuel rest := by
  simp [renderAux, findClose_spec nm rest h]

theorem renderAux_fuel (ctx : Ctx) :
    ∀ f1 f2 cs, cs.length ≤ f1 → cs.length ≤ f2 →
      renderAux ctx f1 cs = renderAux ctx f2 cs := by
  intro f1
  induction f1 with
  | zero =>
    intro f2 cs h1 _
    have : cs = [] := List.eq_nil_of_length_eq_zero (Nat.le_zero.mp h1)
    subst this
    cases f2 <;> simp [renderAux]
  | succ k ih =>
    intro f2 cs h1 h2
    cases cs with
    | nil => cases f2 <;> simp [renderAux]
    | cons c rest =>
      cases f2 with
      | zero => simp at h2
      | succ m =>
        simp only [List.length_cons] at h1 h2
        by_cases hc : c = '{'
        · subst hc
          cases rest with
          | nil => simp [renderAux]
          | cons c2 rest2 =>
            simp only [List.length_cons] at h1 h2
            by_cases hc2 : c2 = '{'
            · subst hc2
              cases hfc : findClose rest2 with
              | none =>
                simp only [renderAux, if_pos rfl, hfc]
                exact congrArg _ (ih m ('{' :: rest2) (by simp; omega) (by simp; omega))
              | some p =>
                obtain ⟨nm, rest3⟩ := p
                have hlen := findClose_length rest2 nm rest3 hfc
                simp only [renderAux, if_pos rfl, hfc]
                exact congrArg _ (ih m rest3 (by omega) (by omega))
            · simp only [renderAux, if_pos rfl, if_neg hc2]
              exact congrArg _ (ih m (c2 :: rest2) (by simp; omega) (by simp; omega))
        · simp only [renderAux, if_neg hc]
          exact congrArg _ (ih m rest (by omega) (by omega))

theorem renderAux_prefix (ctx : Ctx) :
    ∀ pre, (∀ c ∈ pre, c ≠ '{') → ∀ fuel cs,
      renderAux ctx (pre.length + fuel) (pre ++ cs) = pre ++ renderAux ctx fuel cs := by
  intro pre
  induction pre with
  | nil => simp
  | cons c pre ih =>
    intro h fuel cs
    have hc : c ≠ '{' := h c (List.mem_cons_self c pre)
    have hlen : (c :: pre).length + fuel = (pre.length + fuel) + 1 := by
      simp [List.length_cons]
      omega
    rw [hlen, List.cons_append, renderAux_plain ctx _ c _ hc,
      ih (fun d hd => h d (List.mem_cons_of_mem c hd)) fuel cs, List.cons_append]

/-! ## Claim C2 -/

/-- Claim C2, as stated, is false on the code: `get_rendered_content`
renders through `django.template.Template`, and a placeholder outside the
context — here `\x7b\x7bunknown\x7d\x7d` in a subject rendered by
`render_template` — is replaced by the empty string (Django's default
`string_if_invalid`), not left verbatim:
the rendered subject is `"Hi "`, not `"Hi \x7b\x7bunknown\x7d\x7d"`. -/
theorem renderTemplate_unknown_not_verbatim :
    (renderTemplate sampleTemplateUnknown sampleLead sampleUser "Jan" "10").subject
      = "Hi " ∧
    "Hi " ≠ "Hi \x7b\x7bunknown\x7d\x7d" := by
  constructor
  · rfl
  · decide

/-- Claim C2 (amended): rendering a string containing a placeholder whose
(trimmed) name is outside the context built from the allowed set replaces
that placeholder with the empty string — it does not leave it verbatim and
does not raise an error (the renderer is a total function). -/
theorem renderString_unknown_placeholder (ctx : Ctx) (pre nm rest : String)
    (hpre : ∀ c ∈ pre.data, c ≠ '{')
    (hnm : ∀ c ∈ nm.data, c ≠ '}')
    (hlook : ctxLookup ctx (String.mk (trimChars nm.data)) = none) :
    renderString ctx (pre ++ "\x7b\x7b" ++ nm ++ "\x7d\x7d" ++ rest)
      = pre ++ renderString ctx rest := by
  obtain ⟨preL⟩ := pre
  obtain ⟨nmL⟩ := nm
  obtain ⟨restL⟩ := rest
  have hdata :
      (String.mk preL ++ "\x7b\x7b" ++ String.mk nmL ++ "\x7d\x7d" ++ String.mk restL).data
        = preL ++ ('{' :: '{' :: (nmL ++ '}' :: '}' :: restL)) := by
    simp [String.data_append]
  unfold renderString
  rw [hdata]
  have hlen1 : (preL ++ ('{' :: '{' :: (nmL ++ '}' :: '}' :: restL))).length
      = preL.length + (nmL.length + 3 + restL.length + 1) := by
    simp [List.length_append]
    omega
  rw [hlen1, renderAux_prefix ctx preL hpre _ _,
    renderAux_var ctx _ nmL restL hnm]
  have hres : resolveVar ctx (String.mk (trimChars nmL)) = "" := by
    simp [resolveVar, hlook]
  rw [hres]
  have hfuel : renderAux ctx (nmL.length + 3 + restL.length) restL
      = renderAux ctx restL.length restL :=
    renderAux_fuel ctx _ _ restL (by omega) (Nat.le_refl _)
  rw [hfuel]
  rfl

/-- Witness for `renderString_unknown_placeholder`: concrete rendering of
`"Hi \x7b\x7bunknown\x7d\x7d!"` against the real `render_template` context. -/
theorem renderString_unknown_placeholder_witness :
    renderString (buildContext sampleLead sampleUser "Jan" "10")
        ("Hi " ++ "\x7b\x7b" ++ "unknown" ++ "\x7d\x7d" ++ "!")
      = "Hi " ++ renderString (buildContext sampleLead sampleUser "Jan" "10") "!" :=
  renderString_unknown_placeholder (buildContext sampleLead sampleUser "Jan" "10")
    "Hi " "unknown" "!" (by decide) (by decide) (by decide)

/-! ## Supporting lemmas: targeting -/

theorem dedupByIdAux_eq_self :
    ∀ (ls : List Lead) (seen : List Nat), (ls.map Lead.id).Nodup →
      (∀ l ∈ ls, l.id ∉ seen) → dedupByIdAux seen ls = ls := by
  intro ls
  induction ls with
  | nil => intro seen _ _; rfl
  | cons l rest ih =>
    intro seen hnd hseen
    have hmem : l.id ∉ seen := hseen l (List.mem_cons_self l rest)
    have hcontains : seen.contains l.id = false := by
      simpa using hmem
    simp only [List.map_cons, List.nodup_cons] at hnd
    have hrest : ∀ x ∈ rest, x.id ∉ l.id :: seen := by
      intro x hx
      simp only [List.mem_cons]
      push_neg
      constructor
      · intro hEq
        exact hnd.1 (hEq ▸ List.mem_map_of_mem Lead.id hx)
      · exact hseen x (List.mem_cons_of_mem l hx)
    simp only [dedupByIdAux, hcontains, Bool.false_eq_true, if_false]
    exact congrArg (l :: ·) (ih (l.id :: seen) hnd.2 hrest)

/-! ## Claim C4 -/

/-- Claim C4: for a campaign with `target_all_leads=true`,
`get_target_leads` is the set of leads whose email is non-null and
non-empty, independent of `target_statuses`, `target_priorities`,
`target_sources` and `specific_leads` (none of which the `target_all_leads`
branch reads): the result is exactly `leads.filter emailPresent`, and
membership is equivalent to being a stored lead with a non-empty,
non-null email. -/
theorem getTargetLeads_all (c : Campaign) (leads : List Lead)
    (hall : c.targetAllLeads = true)
    (hnd : (leads.map Lead.id).Nodup) :
    getTargetLeads c leads = leads.filter emailPresent ∧
    ∀ l, l ∈ getTargetLeads c leads ↔
      l ∈ leads ∧ l.email ≠ none ∧ l.email ≠ some "" := by
  have hnd2 : ((leads.filter emailPresent).map Lead.id).Nodup :=
    hnd.sublist ((List.filter_sublist leads).map Lead.id)
  have h2 : getTargetLeads c leads = leads.filter emailPresent := by
    unfold getTargetLeads dedupById
    rw [hall]
    simp only [if_pos rfl]
    exact dedupByIdAux_eq_self _ [] hnd2 (by simp)
  refine ⟨h2, fun l => ?_⟩
  rw [h2, List.mem_filter]
  simp [emailPresent, and_assoc]

/-- Witness for `getTargetLeads_all`: the all-leads campaign over a
two-lead table keeps exactly the lead that has an email address. -/
theorem getTargetLeads_all_witness :
    getTargetLeads sampleCampaign [sampleLead, sampleLeadNoEmail]
      = [sampleLead, sampleLeadNoEmail].filter emailPresent :=
  (getTargetLeads_all sampleCampaign [sampleLead, sampleLeadNoEmail]
    (by decide) (by decide)).1

/-! ## Claim C10 -/

/-- Claim C10: `create_campaign_emails` unconditionally overwrites the
campaign's aggregate counters with `emails_sent=0`, `emails_failed=0` —
for every input state, in particular when no new Email row is created, so
re-materializing a campaign erases counts accumulated by earlier
`send_campaign_batch` calls. -/
theorem createCampaignEmails_resets_counters (c : Campaign) (tpl : EmailTemplate)
    (cfg : EmailConfig) (user : UserM) (cd ct : String) (leads : List Lead)
    (emails : List EmailRow) (nextId : Nat) :
    (createCampaignEmails c tpl cfg user cd ct leads emails nextId).campaign
      = { c with emailsSent := 0, emailsFailed := 0 } := rfl

/-! ## Supporting lemmas: campaign materialization -/

theorem newCampaignEmail_campaignId (c : Campaign) (tpl : EmailTemplate)
    (cfg : EmailConfig) (user : UserM) (cd ct : String) (l : Lead) (nid : Nat) :
    (newCampaignEmail c tpl cfg user cd ct l nid).campaignId = some c.id := rfl

theorem newCampaignEmail_leadId (c : Campaign) (tpl : EmailTemplate)
    (cfg : EmailConfig) (user : UserM) (cd ct : String) (l : Lead) (nid : Nat) :
    (newCampaignEmail c tpl cfg user cd ct l nid).leadId = l.id := rfl

theorem campaignEmailExists_append_left (emails suf : List EmailRow) (cid lid : Nat)
    (h : campaignEmailExists emails cid lid = true) :
    campaignEmailExists (emails ++ suf) cid lid = true := by
  simp only [campaignEmailExists, List.any_eq_true] at h ⊢
  obtain ⟨e, he, hp⟩ := h
  exact ⟨e, List.mem_append_left suf he, hp⟩

theorem createEmailsLoop_emails_prefix (c : Campaign) (tpl : EmailTemplate)
    (cfg : EmailConfig) (user : UserM) (cd ct : String) :
    ∀ (ls : List Lead) (emails : List EmailRow) (nid cnt : Nat), ∃ suf,
      (createEmailsLoop c tpl cfg user cd ct ls emails nid cnt).1 = emails ++ suf := by
  intro ls
  induction ls with
  | nil => intro emails nid cnt; exact ⟨[], by simp [createEmailsLoop]⟩
  | cons l rest ih =>
    intro emails nid cnt
    by_cases h : campaignEmailExists emails c.id l.id = true
    · simpa [createEmailsLoop, h] using ih emails nid cnt
    · obtain ⟨suf, hsuf⟩ :=
        ih (emails ++ [newCampaignEmail c tpl cfg user cd ct l nid]) (nid + 1) (cnt + 1)
      refine ⟨newCampaignEmail c tpl cfg user cd ct l nid :: suf, ?_⟩
      simp only [createEmailsLoop, h, if_false, Bool.false_eq_true]
      rw [hsuf, List.append_assoc]
      rfl

theorem createEmailsLoop_covers (c : Campaign) (tpl : EmailTemplate)
    (cfg : EmailConfig) (user : UserM) (cd ct : String) :
    ∀ (ls : List Lead) (emails : List EmailRow) (nid cnt : Nat), ∀ l ∈ ls,
      campaignEmailExists
        (createEmailsLoop c tpl cfg user cd ct ls emails nid cnt).1 c.id l.id = true := by
  intro ls
  induction ls with
  | nil => intro _ _ _ l h; cases h
  | cons hd rest ih =>
    intro emails nid cnt l hl
    by_cases hex : campaignEmailExists emails c.id hd.id = true
    · rcases List.mem_cons.mp hl with rfl | hl'
      · obtain ⟨suf, hsuf⟩ :=
          createEmailsLoop_emails_prefix c tpl cfg user cd ct rest emails nid cnt
        simp only [createEmailsLoop, if_pos hex]
        rw [hsuf]
        exact campaignEmailExists_append_left _ _ _ _ hex
      · simp only [createEmailsLoop, if_pos hex]
        exact ih emails nid cnt l hl'
    · have hrow : campaignEmailExists
          (emails ++ [newCampaignEmail c tpl cfg user cd ct hd nid]) c.id hd.id = true := by
        simp only [campaignEmailExists, List.any_eq_true]
        exact ⟨newCampaignEmail c tpl cfg user cd ct hd nid,
          List.mem_append_right emails (List.mem_singleton.mpr rfl),
          by simp [newCampaignEmail_campaignId, newCampaignEmail_leadId]⟩
      rcases List.mem_cons.mp hl with rfl | hl'
      · obtain ⟨suf, hsuf⟩ := createEmailsLoop_emails_prefix c tpl cfg user cd ct rest
          (emails ++ [newCampaignEmail c tpl cfg user cd ct l nid]) (nid + 1) (cnt + 1)
        simp only [createEmailsLoop, hex, if_false, Bool.false_eq_true]
        rw [hsuf]
        exact campaignEmailExists_append_left _ _ _ _ hrow
      · simp only [createEmailsLoop, hex, if_false, Bool.false_eq_true]
        exact ih _ _ _ l hl'

theorem createEmailsLoop_skip_all (c : Campaign) (tpl : EmailTemplate)
    (cfg : EmailConfig) (user : UserM) (cd ct : String) :
    ∀ (ls : List Lead) (emails : List EmailRow) (nid cnt : Nat),
      (∀ l ∈ ls, campaignEmailExists emails c.id l.id = true) →
      createEmailsLoop c tpl cfg user cd ct ls emails nid cnt = (emails, nid, cnt) := by
  intro ls
  induction ls with
  | nil => intro emails nid cnt _; rfl
  | cons l rest ih =>
    intro emails nid cnt h
    have hl := h l (List.mem_cons_self l rest)
    simp only [createEmailsLoop, if_pos hl]
    exact ih emails nid cnt (fun x hx => h x (List.mem_cons_of_mem l hx))

theorem createEmailsLoop_count_other (c : Campaign) (tpl : EmailTemplate)
    (cfg : EmailConfig) (user : UserM) (cd ct : String) :
    ∀ (ls : List Lead) (emails : List EmailRow) (nid cnt : Nat) (lid : Nat),
      lid ∉ ls.map Lead.id →
      campaignPairCount (createEmailsLoop c tpl cfg user cd ct ls emails nid cnt).1 c.id lid
        = campaignPairCount emails c.id lid := by
  intro ls
  induction ls with
  | nil => intro emails nid cnt lid _; rfl
  | cons l rest ih =>
    intro emails nid cnt lid hmem
    simp only [List.map_cons, List.mem_cons] at hmem
    push_neg at hmem
    by_cases hex : campaignEmailExists emails c.id l.id = true
    · simp only [createEmailsLoop, if_pos hex]
      exact ih emails nid cnt lid hmem.2
    · simp only [createEmailsLoop, hex, if_false, Bool.false_eq_true]
      rw [ih _ _ _ lid hmem.2]
      unfold campaignPairCount
      rw [List.countP_append]
      have hne : l.id ≠ lid := fun hEq => hmem.1 hEq.symm
      have : (fun e : EmailRow => e.campaignId == some c.id && e.leadId == lid)
          (newCampaignEmail c tpl cfg user cd ct l nid) = false := by
        simp [newCampaignEmail_campaignId, newCampaignEmail_leadId, hne]
      simp [this]

theorem createEmailsLoop_count_target (c : Campaign) (tpl : EmailTemplate)
    (cfg : EmailConfig) (user : UserM) (cd ct : String) :
    ∀ (ls : List Lead) (emails : List EmailRow) (nid cnt : Nat) (lid : Nat),
      (ls.map Lead.id).Nodup → lid ∈ ls.map Lead.id →
      campaignPairCount emails c.id lid = 0 →
      campaignPairCount (createEmailsLoop c tpl cfg user cd ct ls emails nid cnt).1 c.id lid
        = 1 := by
  intro ls
  induction ls with
  | nil => intro _ _ _ _ _ h; cases h
  | cons l rest ih =>
    intro emails nid cnt lid hnd hmem hzero
    simp only [List.map_cons, List.nodup_cons] at hnd
    have hexzero : campaignEmailExists emails c.id lid = false := by
      rcases h : campaignEmailExists emails c.id lid with _ | _
      · rfl
      · exfalso
        simp only [campaignEmailExists, List.any_eq_true] at h
        obtain ⟨e, he, hp⟩ := h
        have : 0 < campaignPairCount emails c.id lid :=
          List.countP_pos_iff.mpr ⟨e, he, hp⟩
        omega
    rcases List.mem_cons.mp hmem with rfl | hmem'
    · have hex : campaignEmailExists emails c.id l.id = false := hexzero
      simp only [createEmailsLoop, hex, if_false, Bool.false_eq_true]
      have hnotin : l.id ∉ rest.map Lead.id := hnd.1
      rw [createEmailsLoop_count_other c tpl cfg user cd ct rest _ _ _ _ hnotin]
      unfold campaignPairCount
      rw [List.countP_append]
      have hone : (fun e : EmailRow => e.campaignId == some c.id && e.leadId == l.id)
          (newCampaignEmail c tpl cfg user cd ct l nid) = true := by
        simp [newCampaignEmail_campaignId, newCampaignEmail_leadId]
      have := hzero
      unfold campaignPairCount at this
      simp [this, hone]
    · have hne : lid ≠ l.id := by
        intro hEq
        exact hnd.1 (hEq ▸ hmem')
      by_cases hex : campaignEmailExists emails c.id l.id = true
      · simp only [createEmailsLoop, if_pos hex]
        exact ih emails nid cnt lid hnd.2 hmem' hzero
      · simp only [createEmailsLoop, hex, if_false, Bool.false_eq_true]
        refine ih _ _ _ lid hnd.2 hmem' ?_
        unfold campaignPairCount
        rw [List.countP_append]
        have hne2 : l.id ≠ lid := fun hEq => hne hEq.symm
        have : (fun e : EmailRow => e.campaignId == some c.id && e.leadId == lid)
            (newCampaignEmail c tpl cfg user cd ct l nid) = false := by
          simp [newCampaignEmail_campaignId, newCampaignEmail_leadId, hne2]
        have hz := hzero
        unfold campaignPairCount at hz
        simp [hz, this]

theorem dedupByIdAux_nodup :
    ∀ (ls : List Lead) (seen : List Nat),
      ((dedupByIdAux seen ls).map Lead.id).Nodup ∧
      ∀ x ∈ dedupByIdAux seen ls, x.id ∉ seen := by
  intro ls
  induction ls with
  | nil => intro seen; exact ⟨List.nodup_nil, by simp [dedupByIdAux]⟩
  | cons l rest ih =>
    intro seen
    by_cases h : seen.contains l.id = true
    · have h' : l.id ∈ seen := by simpa using h
      simpa [dedupByIdAux, h'] using ih seen
    · obtain ⟨ihn, ihs⟩ := ih (l.id :: seen)
      have hmem : l.id ∉ seen := by simpa using h
      constructor
      · simp only [dedupByIdAux, h, if_false, Bool.false_eq_true, List.map_cons,
          List.nodup_cons]
        refine ⟨?_, ihn⟩
        intro hin
        obtain ⟨x, hx, hxid⟩ := List.mem_map.mp hin
        exact ihs x hx (hxid ▸ List.mem_cons_self l.id seen)
      · intro x hx
        simp only [dedupByIdAux, h, if_false, Bool.false_eq_true, List.mem_cons] at hx
        rcases hx with rfl | hx'
        · exact hmem
        · exact fun hin => ihs x hx' (List.mem_cons_of_mem l.id hin)

theorem getTargetLeads_nodup (c : Campaign) (leads : List Lead) :
    ((getTargetLeads c leads).map Lead.id).Nodup := by
  unfold getTargetLeads dedupById
  exact (dedupByIdAux_nodup _ []).1

/-! ## Claim C3 -/

/-- Claim C3: materialization is idempotent over Email rows.  Starting
from a state with no Email rows for the campaign, a first
`create_campaign_emails` call leaves exactly one row per (campaign, lead)
pair — one for each targeted lead, none for anyone else — and a second
call on the unchanged target set inserts nothing: it returns the same
email table, the same next primary key, and a `created` count of zero. -/
theorem createCampaignEmails_idempotent (c : Campaign) (tpl : EmailTemplate)
    (cfg : EmailConfig) (user : UserM) (cd ct : String) (leads : List Lead)
    (emails : List EmailRow) (nextId : Nat) (r1 : CreateResult)
    (hr1 : createCampaignEmails c tpl cfg user cd ct leads emails nextId = r1)
    (hzero : ∀ lid, campaignPairCount emails c.id lid = 0) :
    createCampaignEmails c tpl cfg user cd ct leads r1.emails r1.nextId
      = { campaign := { c with emailsSent := 0, emailsFailed := 0 },
          emails := r1.emails, nextId := r1.nextId, created := 0 } ∧
    (∀ l ∈ getTargetLeads c leads, campaignPairCount r1.emails c.id l.id = 1) ∧
    (∀ lid, campaignPairCount r1.emails c.id lid ≤ 1) := by
  subst hr1
  have hcover : ∀ l ∈ getTargetLeads c leads,
      campaignEmailExists
        (createEmailsLoop c tpl cfg user cd ct (getTargetLeads c leads) emails nextId 0).1
        c.id l.id = true :=
    fun l hl => createEmailsLoop_covers c tpl cfg user cd ct _ emails nextId 0 l hl
  refine ⟨?_, ?_, ?_⟩
  · simp only [createCampaignEmails]
    rw [createEmailsLoop_skip_all c tpl cfg user cd ct (getTargetLeads c leads) _ _ _ hcover]
  · intro l hl
    have hmem : l.id ∈ (getTargetLeads c leads).map Lead.id :=
      List.mem_map_of_mem Lead.id hl
    exact createEmailsLoop_count_target c tpl cfg user cd ct _ emails nextId 0 l.id
      (getTargetLeads_nodup c leads) hmem (hzero l.id)
  · intro lid
    by_cases hmem : lid ∈ (getTargetLeads c leads).map Lead.id
    · have := createEmailsLoop_count_target c tpl cfg user cd ct _ emails nextId 0 lid
        (getTargetLeads_nodup c leads) hmem (hzero lid)
      simp only [createCampaignEmails]
      omega
    · have := createEmailsLoop_count_other c tpl cfg user cd ct _ emails nextId 0 lid hmem
      simp only [createCampaignEmails]
      rw [this, hzero lid]
      omega

/-- Witness for `createCampaignEmails_idempotent`: re-materializing the
sample campaign over a two-lead table returns the first call's email
table unchanged with `created = 0`. -/
theorem createCampaignEmails_idempotent_witness :
    createCampaignEmails sampleCampaign sampleTemplateUnknown sampleConfig sampleUser
        "Jan" "10" [sampleLead, sampleLeadNoEmail]
        (createCampaignEmails sampleCampaign sampleTemplateUnknown sampleConfig sampleUser
          "Jan" "10" [sampleLead, sampleLeadNoEmail] [] 1).emails
        (createCampaignEmails sampleCampaign sampleTemplateUnknown sampleConfig sampleUser
          "Jan" "10" [sampleLead, sampleLeadNoEmail] [] 1).nextId
      = { campaign := { sampleCampaign with emailsSent := 0, emailsFailed := 0 },
          emails := (createCampaignEmails sampleCampaign sampleTemplateUnknown sampleConfig
            sampleUser "Jan" "10" [sampleLead, sampleLeadNoEmail] [] 1).emails,
          nextId := (createCampaignEmails sampleCampaign sampleTemplateUnknown sampleConfig
            sampleUser "Jan" "10" [sampleLead, sampleLeadNoEmail] [] 1).nextId,
          created := 0 } :=
  (createCampaignEmails_idempotent sampleCampaign sampleTemplateUnknown sampleConfig
    sampleUser "Jan" "10" [sampleLead, sampleLeadNoEmail] [] 1 _ rfl (fun _ => rfl)).1

/-! ## Claim C1 -/

/-- Claim C1, as stated, is false on the code: with `batch_size=2`, five
queued rows and an always-succeeding transport, after 3 `send_campaign_batch`
calls all five emails are `sent` and `emails_sent=5`, but the campaign's
status is still `sending`, not `sent` — the emptiness check runs at the
start of a call, so the third call (which still found one queued row)
never transitions the campaign. -/
theorem sendCampaignBatch_three_calls_not_sent :
    ((batchIter (fun _ => SendResult.ok) 7 3 (sampleCampaign, sampleDb5)).2.emails.all
        (fun e => e.status == "sent")) = true ∧
    (batchIter (fun _ => SendResult.ok) 7 3 (sampleCampaign, sampleDb5)).1.emailsSent = 5 ∧
    (batchIter (fun _ => SendResult.ok) 7 3 (sampleCampaign, sampleDb5)).1.status
      ≠ "sent" := by
  refine ⟨by decide, by decide, by decide⟩

/-- Claim C1 (amended): campaign with `batch_size=2`, exactly 5 queued
rows, every delivery succeeding.  The first `send_campaign_batch` call
sends 2 and leaves `emails_sent=2` with status still `sending`; after 3
calls all 5 emails are `sent` and `emails_sent=5`, but the status is still
`sending`; the transition to `sent` with `completed_at` stamped happens on
the next (4th) call, the first to find no queued rows remaining. -/
theorem sendCampaignBatch_batch2_five (c : Campaign) (e1 e2 e3 e4 e5 : EmailRow)
    (db : MailDb) (res : Nat → SendResult) (now : Nat)
    (hdb : db.emails = [e1, e2, e3, e4, e5])
    (hb : c.batchSize = 2) (hst : c.status = "sending")
    (hs0 : c.emailsSent = 0) (hf0 : c.emailsFailed = 0)
    (hid1 : e1.id = 1) (hid2 : e2.id = 2) (hid3 : e3.id = 3)
    (hid4 : e4.id = 4) (hid5 : e5.id = 5)
    (hq1 : e1.status = "queued") (hq2 : e2.status = "queued")
    (hq3 : e3.status = "queued") (hq4 : e4.status = "queued")
    (hq5 : e5.status = "queued")
    (hc1 : e1.campaignId = some c.id) (hc2 : e2.campaignId = some c.id)
    (hc3 : e3.campaignId = some c.id) (hc4 : e4.campaignId = some c.id)
    (hc5 : e5.campaignId = some c.id)
    (hres : ∀ n, res n = SendResult.ok) :
    (batchIter res now 1 (c, db)).1.emailsSent = 2 ∧
    (batchIter res now 1 (c, db)).1.status = "sending" ∧
    ((batchIter res now 3 (c, db)).2.emails.all (fun e => e.status == "sent")) = true ∧
    (batchIter res now 3 (c, db)).1.emailsSent = 5 ∧
    (batchIter res now 3 (c, db)).1.status = "sending" ∧
    (batchIter res now 4 (c, db)).1.status = "sent" ∧
    (batchIter res now 4 (c, db)).1.completedAt = some now := by
  refine ⟨?_, ?_, ?_, ?_, ?_, ?_, ?_⟩ <;>
    simp [batchIter, sendCampaignBatch, sendBatchLoop, sendEmail, updateEmail,
      hdb, hb, hst, hs0, hf0, hid1, hid2, hid3, hid4, hid5,
      hq1, hq2, hq3, hq4, hq5, hc1, hc2, hc3, hc4, hc5, hres]

/-- Witness for `sendCampaignBatch_batch2_five`, instantiated at the
concrete sample campaign and its five queued rows. -/
theorem sendCampaignBatch_batch2_five_witness :
    (batchIter (fun _ => SendResult.ok) 7 1 (sampleCampaign, sampleDb5)).1.emailsSent = 2 ∧
    (batchIter (fun _ => SendResult.ok) 7 1 (sampleCampaign, sampleDb5)).1.status
      = "sending" ∧
    ((batchIter (fun _ => SendResult.ok) 7 3 (sampleCampaign, sampleDb5)).2.emails.all
      (fun e => e.status == "sent")) = true ∧
    (batchIter (fun _ => SendResult.ok) 7 3 (sampleCampaign, sampleDb5)).1.emailsSent = 5 ∧
    (batchIter (fun _ => SendResult.ok) 7 3 (sampleCampaign, sampleDb5)).1.status
      = "sending" ∧
    (batchIter (fun _ => SendResult.ok) 7 4 (sampleCampaign, sampleDb5)).1.status
      = "sent" ∧
    (batchIter (fun _ => SendResult.ok) 7 4 (sampleCampaign, sampleDb5)).1.completedAt
      = some 7 :=
  sendCampaignBatch_batch2_five sampleCampaign
    (sampleQueuedEmail 1) (sampleQueuedEmail 2) (sampleQueuedEmail 3)
    (sampleQueuedEmail 4) (sampleQueuedEmail 5) sampleDb5 (fun _ => SendResult.ok) 7
    rfl rfl rfl rfl rfl rfl rfl rfl rfl rfl rfl rfl rfl rfl rfl
    rfl rfl rfl rfl rfl (fun _ => rfl)

/-! ## Supporting lemmas: the batch send loop -/

theorem sendBatchLoop_counts (res : Nat → SendResult) (now : Nat) :
    ∀ (q : List EmailRow) (db : MailDb) (s f : Nat),
      (sendBatchLoop res now q db s f).2.1
        = s + q.countP (fun x => (sendEmail x (res x.id) now).success) ∧
      (sendBatchLoop res now q db s f).2.2
        = f + q.countP (fun x => !(sendEmail x (res x.id) now).success) := by
  intro q
  induction q with
  | nil => intro db s f; simp [sendBatchLoop]
  | cons e rest ih =>
    intro db s f
    by_cases h : (sendEmail e (res e.id) now).success = true
    · simp only [sendBatchLoop, h, if_true, List.countP_cons]
      refine ⟨?_, ?_⟩
      · rw [(ih _ (s + 1) f).1]
        omega
      · rw [(ih _ (s + 1) f).2]
        simp only [h, Bool.not_true, Bool.false_eq_true, if_false]
        omega
    · simp only [sendBatchLoop, h, Bool.false_eq_true, if_false, List.countP_cons]
      refine ⟨?_, ?_⟩
      · rw [(ih _ s (f + 1)).1]
        omega
      · rw [(ih _ s (f + 1)).2]
        have h' : (sendEmail e (res e.id) now).success = false :=
          Bool.not_eq_true _ ▸ Bool.eq_false_iff.mpr h
        simp only [h', Bool.not_false, if_true]
        omega

/-! ## Claim C8 -/

/-- Claim C8, as stated, is false on the code: a delivery attempt can fail
without an exception — `msg.send` returning falsy — and on that path
`send_email` sets status `failed` and an error message but does **not**
increment `retry_count` (only the exception handler does `retry_count += 1`).
Here a failing attempt leaves `retry_count` at 0 instead of 1. -/
theorem sendEmail_falsy_no_retry_increment :
    (sendEmail (sampleQueuedEmail 1) SendResult.sendReturnedFalse 7).row.status
      = "failed" ∧
    (sendEmail (sampleQueuedEmail 1) SendResult.sendReturnedFalse 7).success = false ∧
    (sendEmail (sampleQueuedEmail 1) SendResult.sendReturnedFalse 7).row.retryCount = 0 := by
  refine ⟨rfl, rfl, rfl⟩

/-- Claim C8 (amended): when the delivery attempt raises an exception,
`send_email` sets status `failed`, stores the message and increments
`retry_count` by exactly 1; when the transport merely returns falsy it
sets status `failed` with a fixed error message but leaves `retry_count`
unchanged.  Within `send_campaign_batch` one recipient's failure never
aborts the batch: every selected row is attempted, and the returned
(sent, failed) totals count each row of the batch by its own outcome. -/
theorem sendEmail_failure_and_batch_counts (e : EmailRow) (m : String) (now : Nat)
    (res : Nat → SendResult) (c : Campaign) (db : MailDb)
    (hq : (db.emails.filter
        (fun x => x.campaignId == some c.id && x.status == "queued")).take c.batchSize
      ≠ []) :
    (sendEmail e (SendResult.exn m) now).row
      = { e with status := "failed", errorMessage := m,
                 retryCount := e.retryCount + 1 } ∧
    (sendEmail e SendResult.sendReturnedFalse now).row
      = { e with status := "failed", errorMessage := "Failed to send email" } ∧
    (sendCampaignBatch c db none res now).2.2.1
      = ((db.emails.filter
          (fun x => x.campaignId == some c.id && x.status == "queued")).take
            c.batchSize).countP (fun x => (sendEmail x (res x.id) now).success) ∧
    (sendCampaignBatch c db none res now).2.2.2
      = ((db.emails.filter
          (fun x => x.campaignId == some c.id && x.status == "queued")).take
            c.batchSize).countP (fun x => !(sendEmail x (res x.id) now).success) := by
  have hne : ((db.emails.filter
      (fun x => x.campaignId == some c.id && x.status == "queued")).take
        c.batchSize).isEmpty = false := by
    simpa [List.isEmpty_iff] using hq
  refine ⟨rfl, rfl, ?_, ?_⟩
  · simp only [sendCampaignBatch, hne, Bool.false_eq_true, if_false]
    have := (sendBatchLoop_counts res now
      ((db.emails.filter
        (fun x => x.campaignId == some c.id && x.status == "queued")).take c.batchSize)
      db 0 0).1
    simpa using this
  · simp only [sendCampaignBatch, hne, Bool.false_eq_true, if_false]
    have := (sendBatchLoop_counts res now
      ((db.emails.filter
        (fun x => x.campaignId == some c.id && x.status == "queued")).take c.batchSize)
      db 0 0).2
    simpa using this

/-- Witness for `sendEmail_failure_and_batch_counts`: a mixed-outcome
batch (one success, one exception) over the five sample rows. -/
theorem sendEmail_failure_and_batch_counts_witness :
    (sendEmail (sampleQueuedEmail 9) (SendResult.exn "boom") 7).row
      = { sampleQueuedEmail 9 with
          status := "failed", errorMessage := "boom",
          retryCount := (sampleQueuedEmail 9).retryCount + 1 } ∧
    (sendEmail (sampleQueuedEmail 9) SendResult.sendReturnedFalse 7).row
      = { sampleQueuedEmail 9 with
          status := "failed", errorMessage := "Failed to send email" } ∧
    (sendCampaignBatch sampleCampaign sampleDb5 none
        (fun n => if n = 2 then SendResult.exn "boom" else SendResult.ok) 7).2.2.1
      = ((sampleDb5.emails.filter
          (fun x => x.campaignId == some sampleCampaign.id && x.status == "queued")).take
            sampleCampaign.batchSize).countP
          (fun x => (sendEmail x
            ((fun n => if n = 2 then SendResult.exn "boom" else SendResult.ok) x.id)
            7).success) ∧
    (sendCampaignBatch sampleCampaign sampleDb5 none
        (fun n => if n = 2 then SendResult.exn "boom" else SendResult.ok) 7).2.2.2
      = ((sampleDb5.emails.filter
          (fun x => x.campaignId == some sampleCampaign.id && x.status == "queued")).take
            sampleCampaign.batchSize).countP
          (fun x => !(sendEmail x
            ((fun n => if n = 2 then SendResult.exn "boom" else SendResult.ok) x.id)
            7).success) :=
  sendEmail_failure_and_batch_counts (sampleQueuedEmail 9) "boom" 7
    (fun n => if n = 2 then SendResult.exn "boom" else SendResult.ok)
    sampleCampaign sampleDb5 (by decide)

/-! ## Supporting lemmas: default email configurations -/

theorem clearOtherDefaults_count_zero (configs : List EmailConfig) (uid : Nat) :
    defaultCount (clearOtherDefaults configs uid) uid = 0 := by
  unfold defaultCount clearOtherDefaults
  rw [List.countP_map]
  apply List.countP_eq_zero.mpr
  intro x _
  by_cases h1 : x.userId = uid
  · by_cases h2 : x.isDefault = true
    · simp [Function.comp, h1, h2]
    · have hcond : ¬(x.userId = uid ∧ x.isDefault = true) := fun h => h2 h.2
      simp [Function.comp, hcond, h2]
  · have hcond : ¬(x.userId = uid ∧ x.isDefault = true) := fun h => h1 h.1
    simp [Function.comp, hcond, h1]

theorem clearOtherDefaults_members (configs : List EmailConfig) (uid : Nat) :
    ∀ x ∈ clearOtherDefaults configs uid, x.userId = uid → x.isDefault = false := by
  intro x hx hu
  unfold clearOtherDefaults at hx
  obtain ⟨y, _, hy⟩ := List.mem_map.mp hx
  by_cases hcond : y.userId = uid ∧ y.isDefault = true
  · rw [if_pos hcond] at hy
    rw [← hy]
  · rw [if_neg hcond] at hy
    rw [← hy] at hu ⊢
    cases h2 : y.isDefault with
    | false => rfl
    | true => exact absurd ⟨hu, h2⟩ hcond

theorem clearOtherDefaults_ids (configs : List EmailConfig) (uid : Nat) :
    (clearOtherDefaults configs uid).map EmailConfig.id = configs.map EmailConfig.id := by
  unfold clearOtherDefaults
  rw [List.map_map]
  apply List.map_congr_left
  intro x _
  by_cases hcond : x.userId = uid ∧ x.isDefault = true
  · simp [Function.comp, hcond]
  · simp [Function.comp, hcond]

theorem mem_upsertConfig (l : List EmailConfig) (c x : EmailConfig)
    (hx : x ∈ upsertConfig l c) : x = c ∨ x ∈ l := by
  unfold upsertConfig at hx
  by_cases hany : l.any (fun y => y.id == c.id) = true
  · rw [if_pos hany] at hx
    obtain ⟨y, hy, hxy⟩ := List.mem_map.mp hx
    by_cases hid : y.id = c.id
    · rw [if_pos hid] at hxy
      exact Or.inl hxy.symm
    · rw [if_neg hid] at hxy
      exact Or.inr (hxy ▸ hy)
  · rw [if_neg hany] at hx
    rcases List.mem_append.mp hx with h | h
    · exact Or.inr h
    · exact Or.inl (List.mem_singleton.mp h)

theorem countP_id_bound (l : List EmailConfig) (i : Nat)
    (hnd : (l.map EmailConfig.id).Nodup) :
    l.countP (fun x => x.id == i) ≤ 1 ∧
    (i ∈ l.map EmailConfig.id → l.countP (fun x => x.id == i) = 1) := by
  induction l with
  | nil => simp
  | cons a l ih =>
    simp only [List.map_cons, List.nodup_cons] at hnd
    obtain ⟨h1, h2⟩ := hnd
    obtain ⟨ihle, iheq⟩ := ih h2
    by_cases hai : a.id = i
    · have hnot : i ∉ l.map EmailConfig.id := hai ▸ h1
      have hzero : l.countP (fun x => x.id == i) = 0 := by
        apply List.countP_eq_zero.mpr
        intro x hx hpx
        simp only [beq_iff_eq] at hpx
        exact hnot (hpx ▸ List.mem_map_of_mem EmailConfig.id hx)
      refine ⟨?_, fun _ => ?_⟩
      · rw [List.countP_cons]
        simp [hai, hzero]
      · rw [List.countP_cons]
        simp [hai, hzero]
    · have hbeq : (a.id == i) = false := by simp [hai]
      refine ⟨?_, ?_⟩
      · rw [List.countP_cons]
        simp only [hbeq, Bool.false_eq_true, if_false]
        omega
      · intro hmem
        rw [List.countP_cons]
        simp only [List.map_cons, List.mem_cons] at hmem
        rcases hmem with h | h
        · exact absurd h.symm hai
        · have := iheq h
          simp only [hbeq, Bool.false_eq_true, if_false]
          omega

theorem cleared_replace_defaultCount (configs : List EmailConfig) (c : EmailConfig)
    (hc : c.isDefault = true) :
    defaultCount ((clearOtherDefaults configs c.userId).map
        (fun x => if x.id = c.id then c else x)) c.userId
      = (clearOtherDefaults configs c.userId).countP (fun x => x.id == c.id) := by
  unfold defaultCount
  rw [List.countP_map]
  have hall : ∀ x ∈ clearOtherDefaults configs c.userId,
      ¬((fun y : EmailConfig => y.userId == c.userId && y.isDefault) x = true) := by
    have h0 := clearOtherDefaults_count_zero configs c.userId
    unfold defaultCount at h0
    exact List.countP_eq_zero.mp h0
  apply List.countP_congr
  intro x hx
  simp only [Function.comp]
  by_cases hid : x.id = c.id
  · simp [hid, hc]
  · have hfalse := hall x hx
    simp only [Bool.not_eq_true] at hfalse
    simp [hid, hfalse]

theorem save_default_defaultCount (configs : List EmailConfig) (c : EmailConfig)
    (hids : (configs.map EmailConfig.id).Nodup) (hc : c.isDefault = true) :
    defaultCount (EmailConfig.save configs c) c.userId = 1 := by
  unfold EmailConfig.save
  rw [if_pos hc]
  unfold upsertConfig
  have hndc : ((clearOtherDefaults configs c.userId).map EmailConfig.id).Nodup := by
    rw [clearOtherDefaults_ids]
    exact hids
  by_cases hany : (clearOtherDefaults configs c.userId).any (fun y => y.id == c.id) = true
  · rw [if_pos hany]
    rw [cleared_replace_defaultCount configs c hc]
    obtain ⟨y, hy, hyid⟩ := List.any_eq_true.mp hany
    have hmem : c.id ∈ (clearOtherDefaults configs c.userId).map EmailConfig.id :=
      List.mem_map.mpr ⟨y, hy, by simpa using hyid⟩
    exact (countP_id_bound (clearOtherDefaults configs c.userId) c.id hndc).2 hmem
  · rw [if_neg hany]
    unfold defaultCount
    rw [List.countP_append]
    have h0 := clearOtherDefaults_count_zero configs c.userId
    unfold defaultCount at h0
    simp [h0, hc]

/-! ## Claim C7 -/

/-- Claim C7: saving an EmailConfiguration with `is_default=True` first
clears `is_default` on every stored row of that user, so after the save
the user has exactly one default — any stored configuration of that user
still flagged default is the saved row; and a save with `is_default=False`
preserves the at-most-one-default invariant, so after any save the
invariant holds.  (`hids`: stored rows have distinct primary keys.) -/
theorem emailConfigurationSave_single_default (configs : List EmailConfig)
    (c : EmailConfig) (hids : (configs.map EmailConfig.id).Nodup) :
    (c.isDefault = true →
      defaultCount (EmailConfig.save configs c) c.userId = 1 ∧
      ∀ x ∈ EmailConfig.save configs c,
        x.userId = c.userId → x.isDefault = true → x.id = c.id) ∧
    (defaultCount configs c.userId ≤ 1 →
      defaultCount (EmailConfig.save configs c) c.userId ≤ 1) := by
  constructor
  · intro hc
    refine ⟨save_default_defaultCount configs c hids hc, ?_⟩
    intro x hx hu hd
    have hsave : EmailConfig.save configs c
        = upsertConfig (clearOtherDefaults configs c.userId) c := by
      unfold EmailConfig.save
      rw [if_pos hc]
    rw [hsave] at hx
    rcases mem_upsertConfig _ c x hx with rfl | hx2
    · rfl
    · have := clearOtherDefaults_members configs c.userId x hx2 hu
      rw [this] at hd
      cases hd
  · intro hinv
    by_cases hc : c.isDefault = true
    · rw [save_default_defaultCount configs c hids hc]
    · have hcfalse : c.isDefault = false := Bool.eq_false_iff.mpr hc
      unfold EmailConfig.save
      rw [if_neg (by simp [hcfalse])]
      unfold upsertConfig
      by_cases hany : configs.any (fun y => y.id == c.id) = true
      · rw [if_pos hany]
        unfold defaultCount at hinv ⊢
        rw [List.countP_map]
        calc configs.countP ((fun y : EmailConfig => y.userId == c.userId && y.isDefault)
              ∘ fun x => if x.id = c.id then c else x)
            ≤ configs.countP (fun y => y.userId == c.userId && y.isDefault) := by
              apply List.countP_mono_left
              intro x _ hpx
              simp only [Function.comp] at hpx
              by_cases hid : x.id = c.id
              · rw [if_pos hid] at hpx
                simp [hcfalse] at hpx
              · rw [if_neg hid] at hpx
                exact hpx
          _ ≤ 1 := hinv
      · rw [if_neg hany]
        unfold defaultCount at hinv ⊢
        rw [List.countP_append]
        simp [hcfalse]
        omega

theorem emailConfigurationSave_single_default_witness :
    defaultCount (EmailConfig.save [sampleConfig] sampleConfig2Default)
        sampleConfig2Default.userId = 1 ∧
    ∀ x ∈ EmailConfig.save [sampleConfig] sampleConfig2Default,
      x.userId = sampleConfig2Default.userId → x.isDefault = true →
      x.id = sampleConfig2Default.id :=
  (emailConfigurationSave_single_default [sampleConfig] sampleConfig2Default
    (by decide)).1 rfl

/-! ## Supporting lemmas: the sequence engine -/

theorem findNextStep_none_of_past (steps : List SeqStep) (cur : Nat)
    (hpast : ∀ s ∈ steps, s.stepNumber ≤ cur) : findNextStep steps cur = none := by
  unfold findNextStep
  have hfilter : steps.filter (fun s => s.stepNumber == cur + 1 && s.isActive) = [] := by
    rw [List.filter_eq_nil_iff]
    intro s hs
    have hle := hpast s hs
    simp only [Bool.and_eq_true, beq_iff_eq]
    rintro ⟨h1, _⟩
    omega
  rw [hfilter]
  rfl

/-! ## Claim C5 -/

/-- Claim C5: when the step at `current_step + 1` has
`send_only_if_not_replied=true`, an enrollment with `has_replied=true`
skips it — no Email row is created for the step, `current_step` advances
to its number, and evaluation continues with the following step (the call
behaves exactly like a call started past the skipped step); with
`has_replied=false`, the status gate passing and an email configuration
resolved, the step's email row is created and immediately sent, the cursor
advances and `emails_sent` is incremented. -/
theorem scheduleNextStep_reply_gate (steps : List SeqStep) (lead : Lead) (user : UserM)
    (configs : List EmailConfig) (cd ct : String) (res : Nat → SendResult)
    (now fuel : Nat) (st : SeqState) (s : SeqStep) (cfg : EmailConfig)
    (hstep : findNextStep steps st.enrollment.currentStep = some s)
    (hgate : s.sendOnlyIfNotReplied = true) :
    (st.enrollment.hasReplied = true →
      scheduleNextStepAux steps lead user configs cd ct res now (fuel + 1) st
        = scheduleNextStepAux steps lead user configs cd ct res now fuel
            { st with enrollment :=
              { st.enrollment with currentStep := s.stepNumber } }) ∧
    (st.enrollment.hasReplied = false →
      (s.sendOnlyIfStatus.isEmpty || s.sendOnlyIfStatus.contains lead.status) = true →
      lookupConfig configs user.id = some cfg →
      scheduleNextStepAux steps lead user configs cd ct res now (fuel + 1) st
        = { enrollment :=
              { st.enrollment with
                currentStep := s.stepNumber,
                emailsSent := st.enrollment.emailsSent + 1,
                lastEmailSent := some now },
            db :=
              { emails := st.db.emails
                  ++ [(sendEmail (sequenceEmailRow s lead user cfg cd ct st.nextId)
                        (res st.nextId) now).row],
                tracking := st.db.tracking
                  ++ (sendEmail (sequenceEmailRow s lead user cfg cd ct st.nextId)
                        (res st.nextId) now).tracking,
                activities := st.db.activities
                  ++ (sendEmail (sequenceEmailRow s lead user cfg cd ct st.nextId)
                        (res st.nextId) now).activities },
            nextId := st.nextId + 1 }) := by
  constructor
  · intro hrep
    simp [scheduleNextStepAux, hstep, hgate, hrep]
  · intro hrep hstat hcfg
    have hstat' : s.sendOnlyIfStatus = [] ∨ lead.status ∈ s.sendOnlyIfStatus := by
      simpa using hstat
    have hP : ¬(¬s.sendOnlyIfStatus = [] ∧ lead.status ∉ s.sendOnlyIfStatus) := by
      rcases hstat' with h | h
      · exact fun hc => hc.1 h
      · exact fun hc => hc.2 h
    simp [scheduleNextStepAux, hstep, hgate, hrep, hcfg]
    rw [if_neg hP]
    rfl

/-- Witness for `scheduleNextStep_reply_gate`: the gated sample step is
skipped for a replied enrollment and sent for an unreplied one. -/
theorem scheduleNextStep_reply_gate_witness :
    (scheduleNextStepAux [sampleStep] sampleLead sampleUser [sampleConfig] "Jan" "10"
        (fun _ => SendResult.ok) 3 1 sampleSeqState
      = scheduleNextStepAux [sampleStep] sampleLead sampleUser [sampleConfig] "Jan" "10"
          (fun _ => SendResult.ok) 3 0
          { sampleSeqState with enrollment :=
            { sampleSeqState.enrollment with currentStep := sampleStep.stepNumber } }) ∧
    (scheduleNextStepAux [sampleStep] sampleLead sampleUser [sampleConfig] "Jan" "10"
        (fun _ => SendResult.ok) 3 1 sampleSeqStateNotReplied).enrollment.emailsSent
      = sampleSeqStateNotReplied.enrollment.emailsSent + 1 := by
  constructor
  · exact (scheduleNextStep_reply_gate [sampleStep] sampleLead sampleUser [sampleConfig]
      "Jan" "10" (fun _ => SendResult.ok) 3 0 sampleSeqState sampleStep sampleConfig
      rfl rfl).1 rfl
  · rw [(scheduleNextStep_reply_gate [sampleStep] sampleLead sampleUser [sampleConfig]
      "Jan" "10" (fun _ => SendResult.ok) 3 0 sampleSeqStateNotReplied sampleStep
      sampleConfig rfl rfl).2 rfl (by decide) rfl]

/-! ## Claim C6 -/

/-- Claim C6, as stated, is false on the code: calling
`_schedule_next_step` again on an already-completed enrollment is not a
no-op — the completion branch runs again and overwrites `completed_at`
with the new current time (here `some 1` replacing `some 0`). -/
theorem scheduleNextStep_complete_not_noop :
    (scheduleNextStep [] sampleLead sampleUser [sampleConfig] "Jan" "10"
        (fun _ => SendResult.ok) 0 sampleSeqState).enrollment.isActive = false ∧
    (scheduleNextStep [] sampleLead sampleUser [sampleConfig] "Jan" "10"
        (fun _ => SendResult.ok) 0 sampleSeqState).enrollment.completedAt = some 0 ∧
    (scheduleNextStep [] sampleLead sampleUser [sampleConfig] "Jan" "10"
        (fun _ => SendResult.ok) 1
        (scheduleNextStep [] sampleLead sampleUser [sampleConfig] "Jan" "10"
          (fun _ => SendResult.ok) 0 sampleSeqState)).enrollment.completedAt
      ≠ (scheduleNextStep [] sampleLead sampleUser [sampleConfig] "Jan" "10"
          (fun _ => SendResult.ok) 0 sampleSeqState).enrollment.completedAt := by
  refine ⟨rfl, rfl, by decide⟩

/-- Claim C6 (amended): `_schedule_next_step` on an enrollment at or past
the last defined step marks it completed — `is_active=false`,
`completed_at` set to the current time, everything else (including the
mail tables) untouched; a second call leaves every field unchanged except
`completed_at`, which it overwrites with the new current time, so the
operation is a no-op only up to that re-stamp. -/
theorem scheduleNextStep_complete_restamps (steps : List SeqStep) (lead : Lead)
    (user : UserM) (configs : List EmailConfig) (cd ct : String)
    (res : Nat → SendResult) (now1 now2 : Nat) (st : SeqState)
    (hpast : ∀ s ∈ steps, s.stepNumber ≤ st.enrollment.currentStep) :
    scheduleNextStep steps lead user configs cd ct res now1 st
      = { st with enrollment :=
          { st.enrollment with isActive := false, completedAt := some now1 } } ∧
    scheduleNextStep steps lead user configs cd ct res now2
        { st with enrollment :=
          { st.enrollment with isActive := false, completedAt := some now1 } }
      = { st with enrollment :=
          { st.enrollment with isActive := false, completedAt := some now2 } } := by
  have hnone := findNextStep_none_of_past steps st.enrollment.currentStep hpast
  constructor
  · simp [scheduleNextStep, scheduleNextStepAux, hnone]
  · simp [scheduleNextStep, scheduleNextStepAux, hnone]

/-- Witness for `scheduleNextStep_complete_restamps` at the sample
enrollment with an empty step list. -/
theorem scheduleNextStep_complete_restamps_witness :
    scheduleNextStep [] sampleLead sampleUser [sampleConfig] "Jan" "10"
        (fun _ => SendResult.ok) 0 sampleSeqState
      = { sampleSeqState with enrollment :=
          { sampleSeqState.enrollment with isActive := false, completedAt := some 0 } } ∧
    scheduleNextStep [] sampleLead sampleUser [sampleConfig] "Jan" "10"
        (fun _ => SendResult.ok) 1
        { sampleSeqState with enrollment :=
          { sampleSeqState.enrollment with isActive := false, completedAt := some 0 } }
      = { sampleSeqState with enrollment :=
          { sampleSeqState.enrollment with isActive := false, completedAt := some 1 } } :=
  scheduleNextStep_complete_restamps [] sampleLead sampleUser [sampleConfig] "Jan" "10"
    (fun _ => SendResult.ok) 0 1 sampleSeqState (fun s hs => absurd hs (List.not_mem_nil s))

/-! ## Claim C9 -/

/-- Claim C9, as stated, is false on the code: an `opened` callback for a
known tracking id does **not** always increment `open_count` —
`mark_as_opened` only acts when the status is `sent` or `delivered`, so a
repeat open of an already-`opened` row leaves the row (including
`open_count`, still 1) completely unchanged. -/
theorem emailTracking_repeat_open_no_increment :
    (emailTracking { emails := [sampleOpenedEmail], tracking := [], activities := [] }
        1 "opened" 5).emails = [sampleOpenedEmail] ∧
    sampleOpenedEmail.openCount = 1 := by
  refine ⟨by decide, rfl⟩

/-- Claim C9 (amended): an `opened` callback for a known tracking id
appends an `EmailTracking` row and applies `mark_as_opened` to the
matched email; `mark_as_opened` increments `open_count` (and moves the
status to `opened`) exactly when the status is `sent` or `delivered`,
and is the identity on an already-`opened` or `clicked` row; neither an
`opened` nor a `clicked` callback ever moves the status backwards in the
queued → sending → sent → delivered → opened → clicked lifecycle. -/
theorem emailTracking_open_click_monotone (db : MailDb) (tid now : Nat) (e : EmailRow)
    (hfind : db.emails.find? (fun x => x.trackingId == tid) = some e) :
    (emailTracking db tid "opened" now).emails
      = updateEmail db.emails e.id (markAsOpened e now) ∧
    (emailTracking db tid "opened" now).tracking = db.tracking ++ [(e.id, "opened")] ∧
    ((e.status = "sent" ∨ e.status = "delivered") →
      (markAsOpened e now).openCount = e.openCount + 1 ∧
      (markAsOpened e now).status = "opened") ∧
    ((e.status = "opened" ∨ e.status = "clicked") → markAsOpened e now = e) ∧
    statusRank e.status ≤ statusRank (markAsOpened e now).status ∧
    statusRank e.status ≤ statusRank (markAsClicked e now).status := by
  refine ⟨?_, ?_, ?_, ?_, ?_, ?_⟩
  · simp [emailTracking, hfind]
  · simp [emailTracking, hfind]
  · intro h
    unfold markAsOpened
    rw [if_pos h]
    exact ⟨rfl, rfl⟩
  · intro h
    have hneg : ¬(e.status = "sent" ∨ e.status = "delivered") := by
      rcases h with h | h <;> rw [h] <;> decide
    unfold markAsOpened
    rw [if_neg hneg]
  · by_cases h : e.status = "sent" ∨ e.status = "delivered"
    · have hst : (markAsOpened e now).status = "opened" := by
        unfold markAsOpened
        rw [if_pos h]
      rw [hst]
      rcases h with h | h <;> rw [h] <;> decide
    · have hid : markAsOpened e now = e := by
        unfold markAsOpened
        rw [if_neg h]
      rw [hid]
  · by_cases h : e.status = "sent" ∨ e.status = "delivered" ∨ e.status = "opened"
    · have hst : (markAsClicked e now).status = "clicked" := by
        unfold markAsClicked
        rw [if_pos h]
        dsimp only
        by_cases ho : e.openedAt = none
        · rw [if_pos ho]
        · rw [if_neg ho]
      rw [hst]
      rcases h with h | h | h <;> rw [h] <;> decide
    · have hid : markAsClicked e now = e := by
        unfold markAsClicked
        rw [if_neg h]
      rw [hid]

/-- Witness for `emailTracking_open_click_monotone`: a first open of a
`sent` row increments its open count through the tracking endpoint. -/
theorem emailTracking_open_click_monotone_witness :
    (emailTracking { emails := [sampleSentEmail], tracking := [], activities := [] }
        1 "opened" 5).emails
      = updateEmail [sampleSentEmail] sampleSentEmail.id (markAsOpened sampleSentEmail 5) ∧
    (markAsOpened sampleSentEmail 5).openCount = sampleSentEmail.openCount + 1 := by
  have h := emailTracking_open_click_monotone
    { emails := [sampleSentEmail], tracking := [], activities := [] } 1 5
    sampleSentEmail rfl
  exact ⟨h.1, (h.2.2.1 (Or.inl rfl)).1⟩

end CRM
